import Mathlib

/-!
Verification development for the case search and ranking subsystem of the
validation-database repository (file src/search.py, with list_cases from
src/db.py).

Modelling conventions (shallow embedding, translated from the source):

* A Python case record is a structure whose text fields are Option String
  (none models an absent key or a None value; the two are not distinguished,
  which matches every access pattern the searched code uses: .get with a
  default, truthiness tests, and f-string interpolation guarded by
  truthiness).  List-valued fields are List String, matching the code
  pattern case.get(k, []) or [].
* Python dicts keyed by strings are association lists; dict construction by
  comprehension is modelled by a last-binding-wins lookup (dictGetLast),
  dict.get by the same lookup.
* Python float scores are modelled by the rationals.  The two external
  numeric routines that compute square roots (numpy.linalg.norm inside
  search_cases_with_query_embedding, and sklearn cosine_similarity together
  with the fitted TfidfVectorizer inside the tfidf branch of search_cases)
  are taken as explicit function parameters (normFn, cosSimFn) and as the
  index payload field tfidf_vectorizer: they are external library
  collaborators whose exact floating-point values the claims under proof do
  not depend on.  The float32 casts (.astype, np.array(dtype=float32)) are
  modelled as the identity.
* Python sorted(key=lambda x: x[1], reverse=True) is specified to be a
  stable descending sort by the key; it is modelled by the stable descending
  insertion sort sortDesc below (stable sorts by a fixed key are unique, so
  any stable implementation has the same output).
* The on-disk embedding cache (one .npy file per corpus hash) is modelled as
  an explicit association list EmbCache threaded through
  build_index_embeddings, and sha256 hexdigest truncation as an explicit
  hashFn parameter.  build_index_embeddings additionally returns how many
  times it invoked the embedding function (0 or 1), so that the cache claim
  can count invocations.
-/

/-- A source-report reference embedded in a case (entries of
case["source_reports"] as read by search.py). -/
structure SourceReport where
  report_id : Option String
  sect : Option String
  note : Option String
  report_link : Option String
deriving DecidableEq

/-- A case record, with the fields read by search.py.  none models an
absent key (or a stored None). -/
structure Case where
  id : Option String
  title : Option String
  vv_type : Option String
  scope : Option String
  system : Option String
  tools : List String
  phenomena : List String
  tags : List String
  summary : Option String
  source_reports : List SourceReport
deriving DecidableEq

/-- A report record, with the fields read by search.py. -/
structure Report where
  report_number : Option String
  title : Option String
  file_link : Option String
deriving DecidableEq

/-- The database object: db["cases"] and db["reports"], as association
lists (Python dicts have unique keys and preserve insertion order; the
lookups below use the last binding so that duplicate keys, impossible in a
real dict, cannot change any lookup result). -/
structure Db where
  cases : List (String × Case)
  reports : List (String × Report)

/-- Python truthiness of an optional string: None and the empty string are
falsy. -/
def truthyS (o : Option String) : Bool :=
  match o with
  | none => false
  | some s => !(s == "")

/-- Python truthiness of an optional list: None and the empty list are
falsy. -/
def truthyL (o : Option (List String)) : Bool :=
  match o with
  | none => false
  | some l => !l.isEmpty

/-- Python dict.get(k, "") style access for string fields: case.get(k, ""). -/
def getS (o : Option String) : String := o.getD ""

/-- Python (a or b) on optional strings: yields a when a is truthy,
otherwise b (so the result can still be falsy). -/
def orS (a b : Option String) : Option String :=
  if truthyS a then a else b

/-- Last-binding-wins lookup, modelling access to a dict built by a
comprehension (later bindings overwrite earlier ones) and dict.get. -/
def dictGetLast {α : Type} (l : List (String × α)) (k : String) : Option α :=
  l.foldl (fun acc p => if p.1 == k then some p.2 else acc) none

/-- A report with every field missing: the Python default {} taken by
reports.get(rid, {}). -/
def emptyReport : Report := ⟨none, none, none⟩

/-- db.py list_cases: for each (cid, c) in db["cases"].items(), take a copy
of c with cc.setdefault("id", cid).  (The isinstance dict guard is not
modelled: every value of the model dict is a case record.  setdefault with
a present-but-None id is folded into the absent case.) -/
def list_cases (db : Db) : List Case :=
  db.cases.map (fun p => { p.2 with id := some ((p.2.id).getD p.1) })

/-- The dict {c["id"]: c for c in list_cases(db)} followed by .get(cid):
last case whose (defaulted) id equals cid. -/
def all_cases_get (db : Db) (cid : String) : Option Case :=
  dictGetLast ((list_cases db).map (fun c => (getS c.id, c))) cid

/-- search.py lines 16-42, _case_to_text: the list of parts appended before
filtering.  Joining of list fields is ", ".join; report context lines are
appended per source report, guarded by truthiness of each value. -/
def srParts (reports : List (String × Report)) (sr : SourceReport) : List String :=
  let rid := sr.report_id
  let rep := if truthyS rid then (dictGetLast reports (getS rid)).getD emptyReport
             else emptyReport
  (if truthyS rid then ["Source report id: " ++ getS rid] else []) ++
  (if truthyS rep.report_number then ["Report number: " ++ getS rep.report_number] else []) ++
  (if truthyS rep.title then ["Report title: " ++ getS rep.title] else []) ++
  (if truthyS sr.sect then ["Section: " ++ getS sr.sect] else []) ++
  (if truthyS sr.note then ["Note: " ++ getS sr.note] else [])

/-- The full parts list of _case_to_text: nine labeled case-field lines,
then the report-context lines of each source report in order. -/
def caseParts (c : Case) (reports : List (String × Report)) : List String :=
  ["ID: " ++ getS c.id,
   "Title: " ++ getS c.title,
   "V&V type: " ++ getS c.vv_type,
   "Scope: " ++ getS c.scope,
   "System: " ++ getS c.system,
   "Tools: " ++ String.intercalate ", " c.tools,
   "Phenomena: " ++ String.intercalate ", " c.phenomena,
   "Tags: " ++ String.intercalate ", " c.tags,
   "Summary: " ++ getS c.summary] ++
  c.source_reports.flatMap (srParts reports)

/-- The comprehension [p for p in parts if p]: keep the truthy
(= non-empty) parts. -/
def caseTextLines (c : Case) (reports : List (String × Report)) : List String :=
  (caseParts c reports).filter (fun p => !(p == ""))

/-- search.py _case_to_text: "\n".join([p for p in parts if p]). -/
def case_to_text (c : Case) (reports : List (String × Report)) : String :=
  String.intercalate "\n" (caseTextLines c reports)

/-- The number of truthy report-context values of one source report (used
to state that _case_to_text emits exactly one line per non-empty
report-context field). -/
def srCount (reports : List (String × Report)) (sr : SourceReport) : Nat :=
  let rid := sr.report_id
  let rep := if truthyS rid then (dictGetLast reports (getS rid)).getD emptyReport
             else emptyReport
  (if truthyS rid then 1 else 0) +
  (if truthyS rep.report_number then 1 else 0) +
  (if truthyS rep.title then 1 else 0) +
  (if truthyS sr.sect then 1 else 0) +
  (if truthyS sr.note then 1 else 0)

/-- search.py SearchFilters (a dataclass whose fields all default to
None). -/
structure SearchFilters where
  vv_type : Option (List String)
  scope : Option (List String)
  tools : Option (List String)
  tags : Option (List String)
  phenomena : Option (List String)
  system_contains : Option String

/-- SearchFilters() with every predicate unset. -/
def emptyFilters : SearchFilters := ⟨none, none, none, none, none, none⟩

/-- Python str.lower() (ASCII model, applied uniformly to both sides of
every comparison): lowercase each character.  Defined over the character
list so that it evaluates by kernel reduction. -/
def pyLower (s : String) : String := ⟨s.data.map Char.toLower⟩

/-- The inner helper intersects of SearchFilters.matches: an unset or empty
selection always matches; otherwise the lowered selection set must meet the
lowered value set.  (len(sset & vset) > 0 on finite sets of lowered strings
is exactly the existence of s in sel and v in values with equal
lowerings.) -/
def intersects (sel : Option (List String)) (values : List String) : Bool :=
  if !(truthyL sel) then true
  else (sel.getD []).any (fun s => values.any (fun v => pyLower v == pyLower s))

/-- Boolean substring containment on character lists (Python "a in b" for
strings): some contiguous slice of the haystack equals the needle. -/
def startsWithChars : List Char → List Char → Bool
  | [], _ => true
  | _ :: _, [] => false
  | a :: as, b :: bs => a == b && startsWithChars as bs

/-- Substring search used for the system_contains predicate. -/
def containsChars (needle : List Char) : List Char → Bool
  | [] => needle.isEmpty
  | b :: bs => startsWithChars needle (b :: bs) || containsChars needle bs

/-- search.py lines 54-75, SearchFilters.matches: equality predicates on
vv_type and scope (case-insensitive membership in the selection),
set-intersection predicates on tools, tags and phenomena, case-insensitive
substring predicate on system; each unset predicate passes. -/
def SearchFilters.matches (f : SearchFilters) (c : Case) : Bool :=
  if truthyL f.vv_type &&
      !((f.vv_type.getD []).any (fun v => pyLower v == pyLower (getS c.vv_type))) then false
  else if truthyL f.scope &&
      !((f.scope.getD []).any (fun v => pyLower v == pyLower (getS c.scope))) then false
  else if !(intersects f.tools c.tools) then false
  else if !(intersects f.tags c.tags) then false
  else if !(intersects f.phenomena c.phenomena) then false
  else if truthyS f.system_contains &&
      !(containsChars (pyLower (getS f.system_contains)).data (pyLower (getS c.system)).data) then false
  else true

/-- search.py CaseIndex.  The tfidf_vectorizer payload (a fitted sklearn
model) is modelled by its observable behaviour: transforming a query string
into a weight vector.  tfidf_matrix and embeddings are dense row
matrices. -/
structure CaseIndex where
  mode : String
  case_ids : List String
  case_texts : List String
  tfidf_vectorizer : Option (String → List ℚ)
  tfidf_matrix : Option (List (List ℚ))
  embeddings : Option (List (List ℚ))

/-- Python bool(query.strip()): true when the query has a character outside
the whitespace set stripped by str.strip. -/
def pySpace (c : Char) : Bool :=
  c == ' ' || c == '\t' || c == '\n' || c == '\r' || c == '\x0b' || c == '\x0c'

/-- Truthiness of query.strip(). -/
def stripTruthy (s : String) : Bool := s.data.any (fun c => !(pySpace c))

/-- The candidate loop of search_cases (lines 134-140): the ids of
index.case_ids whose case is found in the db and passes the filters, in
index order.  (The Python falsiness test "if not c" also skips a case that
is a present-but-empty dict; record values in the model are never
empty-dict-falsy, so only a failed lookup skips.) -/
def candidate_ids (db : Db) (index : CaseIndex) (f : SearchFilters) : List String :=
  index.case_ids.filter (fun cid =>
    match all_cases_get db cid with
    | none => false
    | some c => f.matches c)

/-- The candidate loop of search_cases_with_query_embedding (lines
210-218): same filter over enumerate(index.case_ids), keeping row index and
id. -/
def candidate_pairs (db : Db) (index : CaseIndex) (f : SearchFilters) : List (Nat × String) :=
  index.case_ids.enum.filter (fun p =>
    match all_cases_get db p.2 with
    | none => false
    | some c => f.matches c)

/-- One step of the stable descending insertion sort: x is placed before
the first element with a strictly smaller key, hence after every earlier
element with an equal key. -/
def insertDesc (x : String × ℚ) : List (String × ℚ) → List (String × ℚ)
  | [] => [x]
  | y :: ys => if y.2 < x.2 then x :: y :: ys else y :: insertDesc x ys

/-- Model of Python sorted(pairs, key=lambda x: x[1], reverse=True): the
stable descending sort by the second component. -/
def sortDesc (l : List (String × ℚ)) : List (String × ℚ) :=
  l.foldl (fun acc x => insertDesc x acc) []

/-- Python list.index on strings: index of the first occurrence (the
not-found ValueError is unreachable at the call site, where the element was
drawn from the list). -/
def pyIndexOf (l : List String) (x : String) : Nat :=
  l.findIdx (fun y => y == x)

/-- Result rows for one source report as assembled by search_cases (lines
168-178); note the duplicated "or sr.get(report_link)" of line 175. -/
structure ResolvedReport where
  report_id : Option String
  report_number : Option String
  report_title : Option String
  report_link : Option String
  note : Option String
  sect : Option String
deriving DecidableEq

/-- A ranked search result (lines 179-190 / 247-258). -/
structure SearchResult where
  id : String
  title : Option String
  vv_type : Option String
  scope : Option String
  system : Option String
  tools : List String
  phenomena : List String
  tags : List String
  score : ℚ
  source_reports : List ResolvedReport
deriving DecidableEq

/-- A case with every field absent; used only as the (unreachable) default
of the re-lookup all_cases[cid] during result assembly. -/
def emptyCase : Case := ⟨none, none, none, none, none, [], [], [], none, []⟩

/-- Resolution of one source-report entry in search_cases (lines 168-178),
including the doubled report_link fallback of line 175. -/
def resolveSrLex (reports : List (String × Report)) (sr : SourceReport) : ResolvedReport :=
  let rid := sr.report_id
  let rep := if truthyS rid then (dictGetLast reports (getS rid)).getD emptyReport
             else emptyReport
  { report_id := rid
    report_number := rep.report_number
    report_title := rep.title
    report_link := orS (orS rep.file_link sr.report_link) sr.report_link
    note := sr.note
    sect := sr.sect }

/-- Resolution of one source-report entry in
search_cases_with_query_embedding (lines 236-246). -/
def resolveSrEmb (reports : List (String × Report)) (sr : SourceReport) : ResolvedReport :=
  let rid := sr.report_id
  let rep := if truthyS rid then (dictGetLast reports (getS rid)).getD emptyReport
             else emptyReport
  { report_id := rid
    report_number := rep.report_number
    report_title := rep.title
    report_link := orS rep.file_link sr.report_link
    note := sr.note
    sect := sr.sect }

/-- Result assembly of search_cases for one ranked (cid, score) pair
(lines 165-190): re-lookup of the case and copying of its display
fields. -/
def resultOfLex (db : Db) (cid : String) (score : ℚ) : SearchResult :=
  let c := (all_cases_get db cid).getD emptyCase
  { id := cid
    title := c.title
    vv_type := c.vv_type
    scope := c.scope
    system := c.system
    tools := c.tools
    phenomena := c.phenomena
    tags := c.tags
    score := score
    source_reports := c.source_reports.map (resolveSrLex db.reports) }

/-- Result assembly of search_cases_with_query_embedding for one ranked
pair (lines 232-258). -/
def resultOfEmb (db : Db) (cid : String) (score : ℚ) : SearchResult :=
  let c := (all_cases_get db cid).getD emptyCase
  { id := cid
    title := c.title
    vv_type := c.vv_type
    scope := c.scope
    system := c.system
    tools := c.tools
    phenomena := c.phenomena
    tags := c.tags
    score := score
    source_reports := c.source_reports.map (resolveSrEmb db.reports) }

/-- The scored candidate list of the tfidf branch of search_cases (lines
147-152): transform the query through the fitted model, select the
candidate rows of the weight matrix by first-occurrence index, and score
each row with the external cosine-similarity routine cosSimFn (one score
per selected row), pairing candidates with scores by position. -/
def lexScored (cosSimFn : List ℚ → List (List ℚ) → List ℚ)
    (db : Db) (index : CaseIndex) (query : String) (f : SearchFilters) :
    List (String × ℚ) :=
  let cands := candidate_ids db index f
  let qVec := (index.tfidf_vectorizer.getD (fun _ => [])) query
  let candIdx := cands.map (fun cid => pyIndexOf index.case_ids cid)
  let rows := candIdx.map (fun i => (index.tfidf_matrix.getD []).getD i [])
  cands.zip (cosSimFn qVec rows)

/-- search.py lines 120-191, search_cases.  cosSimFn is the external
sklearn cosine-similarity collaborator of the tfidf branch. -/
def search_cases (cosSimFn : List ℚ → List (List ℚ) → List ℚ)
    (db : Db) (index : CaseIndex) (query : String)
    (filters : Option SearchFilters) (top_k : Nat) : List SearchResult :=
  let f := filters.getD emptyFilters
  let cands := candidate_ids db index f
  if cands.isEmpty then []
  else
    let ranked :=
      if stripTruthy query then
        if index.mode == "tfidf" && index.tfidf_vectorizer.isSome
            && index.tfidf_matrix.isSome then
          sortDesc (lexScored cosSimFn db index query f)
        else if index.mode == "embeddings" && index.embeddings.isSome then
          cands.map (fun cid => (cid, (0 : ℚ)))
        else
          cands.map (fun cid => (cid, (0 : ℚ)))
      else
        cands.map (fun cid => (cid, (0 : ℚ)))
    (ranked.take top_k).map (fun p => resultOfLex db p.1 p.2)

/-- Dot product of two rows (numpy cand_emb @ q.T for one row; zip models
the shape agreement of the numpy arrays). -/
def dotQ (a b : List ℚ) : ℚ := ((a.zip b).map (fun p => p.1 * p.2)).sum

/-- The epsilon added to each norm (line 226-227). -/
def epsQ : ℚ := 1 / 10 ^ 12

/-- The scored candidate list of search_cases_with_query_embedding (lines
223-228): select candidate embedding rows, and score each row by
dot(row, q) divided by the product of the epsilon-stabilised norms.
normFn is the external numpy.linalg.norm collaborator. -/
def embScored (normFn : List ℚ → ℚ)
    (db : Db) (index : CaseIndex) (query_embedding : List ℚ)
    (f : SearchFilters) : List (String × ℚ) :=
  let pairs := candidate_pairs db index f
  let emb := index.embeddings.getD []
  let candEmb := pairs.map (fun p => emb.getD p.1 [])
  let qNorm := normFn query_embedding + epsQ
  let sim := candEmb.map (fun row => dotQ row query_embedding / ((normFn row + epsQ) * qNorm))
  (pairs.map (fun p => p.2)).zip sim

/-- search.py lines 194-259, search_cases_with_query_embedding.  The raised
ValueError is modelled as the error branch of Except. -/
def search_cases_with_query_embedding (normFn : List ℚ → ℚ)
    (db : Db) (index : CaseIndex) (query_embedding : List ℚ)
    (filters : Option SearchFilters) (top_k : Nat) :
    Except String (List SearchResult) :=
  if !(index.mode == "embeddings") || index.embeddings.isNone then
    .error "Index is not in embeddings mode"
  else
    let f := filters.getD emptyFilters
    let pairs := candidate_pairs db index f
    if (pairs.map (fun p => p.2)).isEmpty then .ok []
    else
      let ranked := sortDesc (embScored normFn db index query_embedding f)
      .ok ((ranked.take top_k).map (fun p => resultOfEmb db p.1 p.2))

/-- The on-disk embedding cache: hash key to stored matrix (one .npy file
per key). -/
def EmbCache : Type := List (String × List (List ℚ))

/-- Cache lookup (emb_path.exists plus np.load). -/
def cacheGet : EmbCache → String → Option (List (List ℚ))
  | [], _ => none
  | (k, v) :: rest, h => if k == h then some v else cacheGet rest h

/-- The projected documents of the corpus, in list_cases order (lines
101-104). -/
def builtTexts (db : Db) : List String :=
  (list_cases db).map (fun c => case_to_text c db.reports)

/-- The corpus ids, in the same order. -/
def builtIds (db : Db) : List String :=
  (list_cases db).map (fun c => getS c.id)

/-- The cache key (line 107): hashFn models
sha256(joined_texts).hexdigest()[:16]. -/
def corpusHash (hashFn : String → String) (db : Db) : String :=
  hashFn (String.intercalate "\n" (builtTexts db))

/-- search.py lines 99-117, build_index_embeddings, with the cache made
explicit.  Returns the index, the cache after the build (np.save on a
miss), and the number of embed_fn invocations performed by this build. -/
def build_index_embeddings (hashFn : String → String)
    (embed_fn : List String → List (List ℚ))
    (db : Db) (cache : EmbCache) : CaseIndex × EmbCache × Nat :=
  let h := corpusHash hashFn db
  match cacheGet cache h with
  | some emb =>
      ({ mode := "embeddings", case_ids := builtIds db, case_texts := builtTexts db,
         tfidf_vectorizer := none, tfidf_matrix := none, embeddings := some emb },
       cache, 0)
  | none =>
      let emb := embed_fn (builtTexts db)
      ({ mode := "embeddings", case_ids := builtIds db, case_texts := builtTexts db,
         tfidf_vectorizer := none, tfidf_matrix := none, embeddings := some emb },
       (h, emb) :: cache, 1)

/-- Fixture: case A of the end-to-end scenario (vv_type validation, tools
SAM). -/
def caseA : Case :=
  { id := some "A", title := some "Case A", vv_type := some "validation",
    scope := none, system := none, tools := ["SAM"], phenomena := [], tags := [],
    summary := none, source_reports := [] }

/-- Fixture: case B of the end-to-end scenario (vv_type verification, tools
Pronghorn). -/
def caseB : Case :=
  { id := some "B", title := some "Case B", vv_type := some "verification",
    scope := none, system := none, tools := ["Pronghorn"], phenomena := [], tags := [],
    summary := none, source_reports := [] }

/-- Fixture: a two-case corpus. -/
def exDb : Db := ⟨[("A", caseA), ("B", caseB)], []⟩

/-- Fixture: filters selecting vv_type validation. -/
def exFiltersV : SearchFilters := ⟨some ["validation"], none, none, none, none, none⟩

/-- Fixture: filters selecting a vv_type present in no corpus case. -/
def noMatchFilters : SearchFilters := ⟨some ["nope"], none, none, none, none, none⟩

/-- Fixture: a case whose title is present but empty. -/
def titlelessCase : Case :=
  { id := some "X", title := some "", vv_type := some "validation",
    scope := none, system := none, tools := [], phenomena := [], tags := [],
    summary := some "Summary text", source_reports := [] }

/-- Fixture: a lexical-mode index without payloads. -/
def lexIdx : CaseIndex := ⟨"tfidf", ["A", "B"], [], none, none, none⟩

/-- Fixture: a stub fitted vectorizer. -/
def vStub : String → List ℚ := fun _ => []

/-- Fixture: a lexical-mode index with payloads. -/
def lexIdx2 : CaseIndex := ⟨"tfidf", ["A", "B"], [], some vStub, some [[1], [2]], none⟩

/-- Fixture: an embeddings-mode index over rows [1,0] and [0,1]. -/
def embIdx : CaseIndex := ⟨"embeddings", ["A", "B"], [], none, none, some [[1, 0], [0, 1]]⟩

/-- Fixture: a stub external cosine-similarity routine. -/
def cosStub : List ℚ → List (List ℚ) → List ℚ := fun _ _ => []

/-- Fixture: a stub external norm routine. -/
def nrmStub : List ℚ → ℚ := fun _ => 1

theorem strAppendNeNil (a b : String) (h : a.data ≠ []) : a ++ b ≠ "" := by
  intro he
  apply h
  have hd := congrArg String.data he
  rw [String.data_append] at hd
  have hnil : a.data ++ b.data = [] := by simpa using hd
  exact (List.append_eq_nil.mp hnil).1

theorem mem_ite_singleton {c : Prop} [Decidable c] {s p : String}
    (h : p ∈ (if c then [s] else [])) : p = s := by
  split at h
  · simpa using h
  · simp at h

theorem srParts_ne_empty (reports : List (String × Report)) (sr : SourceReport) :
    ∀ p ∈ srParts reports sr, p ≠ "" := by
  intro p hp
  simp only [srParts, List.mem_append] at hp
  rcases hp with ((((h | h) | h) | h) | h) <;>
    rw [mem_ite_singleton h] <;> apply strAppendNeNil <;> decide

theorem caseParts_ne_empty (c : Case) (reports : List (String × Report)) :
    ∀ p ∈ caseParts c reports, p ≠ "" := by
  intro p hp
  simp only [caseParts, List.cons_append, List.nil_append, List.mem_cons,
    List.mem_flatMap] at hp
  rcases hp with h | h | h | h | h | h | h | h | h | ⟨sr, _, hm⟩
  · rw [h]; apply strAppendNeNil; decide
  · rw [h]; apply strAppendNeNil; decide
  · rw [h]; apply strAppendNeNil; decide
  · rw [h]; apply strAppendNeNil; decide
  · rw [h]; apply strAppendNeNil; decide
  · rw [h]; apply strAppendNeNil; decide
  · rw [h]; apply strAppendNeNil; decide
  · rw [h]; apply strAppendNeNil; decide
  · rw [h]; apply strAppendNeNil; decide
  · exact srParts_ne_empty reports sr p hm

theorem srParts_length (reports : List (String × Report)) (sr : SourceReport) :
    (srParts reports sr).length = srCount reports sr := by
  simp only [srParts, srCount, List.length_append, apply_ite List.length,
    List.length_singleton, List.length_nil]

/-- Claim C1 (counterexample): the projector emits the labeled Title line
even for a case whose title value is empty, refuting the only-when-non-empty
clause at a concrete input. -/
theorem c1_counterexample :
    ¬ ((("Title: " ++ getS titlelessCase.title) ∈ caseTextLines titlelessCase []) →
        getS titlelessCase.title ≠ "") := by decide

/-- Claim C1 (amended): the projector always emits the nine labeled
case-field lines even when their values are empty, emits exactly one
report-context line per non-empty report-context value, and never itself
contributes a blank line (every joined part is non-empty; the filter of the
source removes nothing). -/
theorem c1_projector_line_discipline (c : Case) (reports : List (String × Report)) :
    caseTextLines c reports = caseParts c reports ∧
    (∀ p ∈ caseTextLines c reports, p ≠ "") ∧
    (caseTextLines c reports).length = 9 + (c.source_reports.map (srCount reports)).sum := by
  have hne := caseParts_ne_empty c reports
  have hfe : caseTextLines c reports = caseParts c reports := by
    apply List.filter_eq_self.mpr
    intro a ha
    simpa using hne a ha
  refine ⟨hfe, ?_, ?_⟩
  · intro p hp
    exact hne p (hfe ▸ hp)
  · rw [hfe]
    simp only [caseParts, List.length_append, List.length_flatMap]
    have hmapeq : c.source_reports.map (List.length ∘ srParts reports) =
        c.source_reports.map (srCount reports) := by
      apply List.map_congr_left
      intro sr _
      exact srParts_length reports sr
    simp [hmapeq]

/-- Claim C5: building the vector index twice over an unchanged corpus with
the same cache invokes the embedding function at most once in total; the
second build performs no invocation and returns the same index; after the
first build the cache holds the matrix of the returned index under the hash
of the concatenated projected documents. -/
theorem c5_embedding_cache (hashFn : String → String)
    (embed_fn : List String → List (List ℚ)) (db : Db) (cache0 : EmbCache) :
    (build_index_embeddings hashFn embed_fn db
        (build_index_embeddings hashFn embed_fn db cache0).2.1).2.2 = 0 ∧
    (build_index_embeddings hashFn embed_fn db cache0).2.2 +
      (build_index_embeddings hashFn embed_fn db
        (build_index_embeddings hashFn embed_fn db cache0).2.1).2.2 ≤ 1 ∧
    (build_index_embeddings hashFn embed_fn db
        (build_index_embeddings hashFn embed_fn db cache0).2.1).1 =
      (build_index_embeddings hashFn embed_fn db cache0).1 ∧
    cacheGet (build_index_embeddings hashFn embed_fn db cache0).2.1 (corpusHash hashFn db) =
      (build_index_embeddings hashFn embed_fn db cache0).1.embeddings := by
  cases hc : cacheGet cache0 (corpusHash hashFn db) with
  | some emb => simp [build_index_embeddings, hc]
  | none => simp [build_index_embeddings, hc, cacheGet]

/-- Claim C6: search_cases_with_query_embedding fails fast with the
distinguished mode-mismatch error on any index that is not in embeddings
mode or lacks the embeddings payload, for every db alike (so before any use
of the db), and never raises that error on an embeddings-mode index with a
payload. -/
theorem c6_mode_mismatch_fail_fast (normFn : List ℚ → ℚ) (db : Db)
    (index : CaseIndex) (query_embedding : List ℚ)
    (filters : Option SearchFilters) (top_k : Nat) :
    ((index.mode ≠ "embeddings" ∨ index.embeddings = none) →
      search_cases_with_query_embedding normFn db index query_embedding filters top_k =
        .error "Index is not in embeddings mode") ∧
    (index.mode = "embeddings" → index.embeddings ≠ none →
      ∃ rs, search_cases_with_query_embedding normFn db index query_embedding filters top_k =
        .ok rs) := by
  constructor
  · rintro (h | h)
    · have hb : (index.mode == "embeddings") = false := by
        simpa using h
      simp [search_cases_with_query_embedding, hb]
    · simp [search_cases_with_query_embedding, h]
  · intro h1 h2
    have hb : (index.mode == "embeddings") = true := by simpa using h1
    have hs : index.embeddings.isNone = false := by
      cases hopt : index.embeddings with
      | none => exact absurd hopt h2
      | some v => rfl
    simp only [search_cases_with_query_embedding, hb, hs, Bool.not_true, Bool.false_or,
      Bool.false_eq_true, if_false]
    by_cases hemp :
        ((candidate_pairs db index (filters.getD emptyFilters)).map (fun p => p.2)).isEmpty = true
    · exact ⟨[], by rw [if_pos hemp]⟩
    · exact ⟨_, by rw [if_neg hemp]⟩

theorem intersects_some_iff (l values : List String) (hl : l ≠ []) :
    (intersects (some l) values = true ↔
      ∃ s ∈ l, ∃ v ∈ values, pyLower v = pyLower s) := by
  have he : l.isEmpty = false := by
    cases l with
    | nil => exact absurd rfl hl
    | cons a t => rfl
  simp [intersects, truthyL, he, List.any_eq_true]

/-- Claim C7: a filter with every predicate unset matches every case; each
set-intersection predicate (tools, tags, phenomena all use intersects) with
an unset or empty selection always matches, and with a non-empty selection
matches exactly when the case-insensitive intersection of selection and
field is non-empty (shown both for the predicate itself and for a filter
carrying only that predicate). -/
theorem c7_filter_evaluator_spec :
    (∀ c : Case, SearchFilters.matches emptyFilters c = true) ∧
    (∀ values : List String, intersects none values = true) ∧
    (∀ values : List String, intersects (some []) values = true) ∧
    (∀ l values : List String, l ≠ [] →
      (intersects (some l) values = true ↔
        ∃ s ∈ l, ∃ v ∈ values, pyLower v = pyLower s)) ∧
    (∀ (l : List String) (c : Case), l ≠ [] →
      (SearchFilters.matches ⟨none, none, some l, none, none, none⟩ c = true ↔
        ∃ s ∈ l, ∃ v ∈ c.tools, pyLower v = pyLower s)) := by
  refine ⟨?_, ?_, ?_, intersects_some_iff, ?_⟩
  · intro c
    simp [SearchFilters.matches, emptyFilters, intersects, truthyL, truthyS]
  · intro values
    rfl
  · intro values
    rfl
  · intro l c hl
    have hm : SearchFilters.matches ⟨none, none, some l, none, none, none⟩ c =
        intersects (some l) c.tools := by
      simp only [SearchFilters.matches, truthyL, truthyS, Bool.false_and,
        Bool.not_false, if_false]
      cases hi : intersects (some l) c.tools with
      | false => simp [intersects, truthyL]
      | true => simp [intersects, truthyL]
    rw [hm]
    exact intersects_some_iff l c.tools hl

/-- Witness for C7 at concrete inputs. -/
theorem c7_filter_evaluator_spec_witness :
    SearchFilters.matches emptyFilters caseA = true ∧
    (intersects (some ["SAM"]) ["sam"] = true ↔
      ∃ s ∈ ["SAM"], ∃ v ∈ ["sam"], pyLower v = pyLower s) :=
  ⟨c7_filter_evaluator_spec.1 caseA,
   c7_filter_evaluator_spec.2.2.2.1 ["SAM"] ["sam"] (by decide)⟩

/-- Witness for C6: a concrete mode-mismatch error and a concrete
successful embeddings-mode call. -/
theorem c6_mode_mismatch_fail_fast_witness :
    search_cases_with_query_embedding nrmStub exDb lexIdx [1] none 10 =
      .error "Index is not in embeddings mode" ∧
    ∃ rs, search_cases_with_query_embedding nrmStub exDb embIdx [1, 0] none 10 = .ok rs :=
  ⟨(c6_mode_mismatch_fail_fast nrmStub exDb lexIdx [1] none 10).1 (Or.inl (by decide)),
   (c6_mode_mismatch_fail_fast nrmStub exDb embIdx [1, 0] none 10).2 rfl
     (Option.some_ne_none _)⟩

theorem mem_insertDesc {x z : String × ℚ} :
    ∀ {l : List (String × ℚ)}, z ∈ insertDesc x l ↔ z = x ∨ z ∈ l := by
  intro l
  induction l with
  | nil => simp [insertDesc]
  | cons y ys ih =>
      by_cases hy : y.2 < x.2
      · simp [insertDesc, hy]
      · simp only [insertDesc, if_neg hy, List.mem_cons, ih]
        tauto

theorem pairwise_insertDesc {x : String × ℚ} {l : List (String × ℚ)}
    (h : List.Pairwise (fun a b => b.2 ≤ a.2) l) :
    List.Pairwise (fun a b => b.2 ≤ a.2) (insertDesc x l) := by
  induction l with
  | nil => simp [insertDesc]
  | cons y ys ih =>
      rcases List.pairwise_cons.mp h with ⟨hy, hys⟩
      by_cases hlt : y.2 < x.2
      · rw [insertDesc, if_pos hlt]
        refine List.pairwise_cons.mpr ⟨?_, h⟩
        intro z hz
        rcases List.mem_cons.mp hz with hz | hz
        · rw [hz]; exact le_of_lt hlt
        · exact le_trans (hy z hz) (le_of_lt hlt)
      · rw [insertDesc, if_neg hlt]
        refine List.pairwise_cons.mpr ⟨?_, ih hys⟩
        intro z hz
        rcases mem_insertDesc.mp hz with hz | hz
        · rw [hz]; exact le_of_not_lt hlt
        · exact hy z hz

theorem filter_insertDesc (s : ℚ) {x : String × ℚ} {l : List (String × ℚ)}
    (h : List.Pairwise (fun a b => b.2 ≤ a.2) l) :
    (insertDesc x l).filter (fun z => decide (z.2 = s)) =
      l.filter (fun z => decide (z.2 = s)) ++ (if x.2 = s then [x] else []) := by
  induction l with
  | nil =>
      simp only [insertDesc, List.filter_nil, List.nil_append]
      by_cases hx : x.2 = s
      · simp [hx]
      · simp [hx]
  | cons y ys ih =>
      rcases List.pairwise_cons.mp h with ⟨hy, hys⟩
      by_cases hlt : y.2 < x.2
      · rw [insertDesc, if_pos hlt]
        by_cases hx : x.2 = s
        · have hnone : ∀ z ∈ y :: ys, ¬ (z.2 = s) := by
            intro z hz
            rcases List.mem_cons.mp hz with hz | hz
            · rw [hz]; intro he; rw [← hx] at he; exact absurd he (ne_of_lt hlt)
            · intro he
              have hzle : z.2 ≤ y.2 := hy z hz
              have : z.2 < x.2 := lt_of_le_of_lt hzle hlt
              rw [he, ← hx] at this
              exact lt_irrefl _ this
          have hfil : (y :: ys).filter (fun z => decide (z.2 = s)) = [] := by
            apply List.filter_eq_nil_iff.mpr
            intro a ha
            simpa using hnone a ha
          simp [List.filter_cons, hx, hfil]
        · rw [List.filter_cons]
          simp [hx]
      · rw [insertDesc, if_neg hlt]
        rw [List.filter_cons, List.filter_cons, ih hys]
        by_cases hyv : y.2 = s
        · simp [hyv]
        · simp [hyv]

theorem sortDescAux_pairwise :
    ∀ (l : List (String × ℚ)) (acc : List (String × ℚ)),
      List.Pairwise (fun a b => b.2 ≤ a.2) acc →
      List.Pairwise (fun a b => b.2 ≤ a.2)
        (l.foldl (fun a x => insertDesc x a) acc) := by
  intro l
  induction l with
  | nil => intro acc h; exact h
  | cons x t ih =>
      intro acc h
      exact ih (insertDesc x acc) (pairwise_insertDesc h)

theorem sortDescAux_filter (s : ℚ) :
    ∀ (l : List (String × ℚ)) (acc : List (String × ℚ)),
      List.Pairwise (fun a b => b.2 ≤ a.2) acc →
      (l.foldl (fun a x => insertDesc x a) acc).filter (fun z => decide (z.2 = s)) =
        acc.filter (fun z => decide (z.2 = s)) ++ l.filter (fun z => decide (z.2 = s)) := by
  intro l
  induction l with
  | nil => intro acc h; simp
  | cons x t ih =>
      intro acc h
      have step := ih (insertDesc x acc) (pairwise_insertDesc h)
      rw [List.foldl_cons, step, filter_insertDesc s h, List.filter_cons]
      by_cases hx : x.2 = s
      · simp [hx]
      · simp [hx]

theorem sortDesc_pairwise (l : List (String × ℚ)) :
    List.Pairwise (fun a b => b.2 ≤ a.2) (sortDesc l) :=
  sortDescAux_pairwise l [] List.Pairwise.nil

theorem sortDesc_filter (s : ℚ) (l : List (String × ℚ)) :
    (sortDesc l).filter (fun z => decide (z.2 = s)) =
      l.filter (fun z => decide (z.2 = s)) := by
  have h := sortDescAux_filter s l [] List.Pairwise.nil
  simpa [sortDesc] using h

theorem map_fst_zip_sublist :
    ∀ (l1 : List String) (l2 : List ℚ), ((l1.zip l2).map Prod.fst).Sublist l1 := by
  intro l1
  induction l1 with
  | nil => intro l2; simp
  | cons a t ih =>
      intro l2
      cases l2 with
      | nil => simp
      | cons b u =>
          simpa [List.zip_cons_cons] using List.Sublist.cons₂ a (ih u)

theorem filter_enumFrom_map_snd (p : String → Bool) :
    ∀ (n : Nat) (l : List String),
      ((List.enumFrom n l).filter (fun x => p x.2)).map (fun x => x.2) = l.filter p := by
  intro n l
  induction l generalizing n with
  | nil => simp [List.enumFrom]
  | cons a t ih =>
      simp only [List.enumFrom, List.filter_cons]
      by_cases hp : p a
      · simp only [hp]
        simp [ih]
      · simp only [hp]
        simp [ih]

theorem candidate_pairs_map_snd (db : Db) (index : CaseIndex) (f : SearchFilters) :
    (candidate_pairs db index f).map (fun p => p.2) = candidate_ids db index f := by
  unfold candidate_pairs candidate_ids List.enum
  exact filter_enumFrom_map_snd
    (fun cid =>
      match all_cases_get db cid with
      | none => false
      | some c => f.matches c) 0 index.case_ids

theorem search_cases_zeros (cosSimFn : List ℚ → List (List ℚ) → List ℚ)
    (db : Db) (index : CaseIndex) (query : String)
    (filters : Option SearchFilters) (top_k : Nat)
    (h : (stripTruthy query && (index.mode == "tfidf" && index.tfidf_vectorizer.isSome
          && index.tfidf_matrix.isSome)) = false) :
    search_cases cosSimFn db index query filters top_k =
      ((candidate_ids db index (filters.getD emptyFilters)).map
        (fun cid => resultOfLex db cid 0)).take top_k := by
  simp only [search_cases]
  by_cases he : (candidate_ids db index (filters.getD emptyFilters)).isEmpty
  · rw [if_pos he]
    rw [List.isEmpty_iff.mp he]
    simp
  · rw [if_neg he]
    cases hq : stripTruthy query with
    | false =>
        simp only [hq, Bool.false_eq_true, if_false]
        rw [List.map_take, List.map_map]
        rfl
    | true =>
        have h2 : (index.mode == "tfidf" && index.tfidf_vectorizer.isSome
            && index.tfidf_matrix.isSome) = false := by
          rw [hq] at h
          simpa using h
        simp only [hq, if_true, h2, Bool.false_eq_true, if_false, ite_self]
        rw [List.map_take, List.map_map]
        rfl

/-- Claim C3: on an embeddings-mode index (with payload), the generic
search_cases entry point with a non-whitespace query does not compute any
similarity: it returns every filter-passing candidate with score 0, in the
original index order, truncated to top_k. -/
theorem c3_generic_search_embeddings_zero_scores
    (cosSimFn : List ℚ → List (List ℚ) → List ℚ) (db : Db) (index : CaseIndex)
    (query : String) (filters : Option SearchFilters) (top_k : Nat)
    (hmode : index.mode = "embeddings") (_hemb : index.embeddings ≠ none)
    (_hq : stripTruthy query = true) :
    search_cases cosSimFn db index query filters top_k =
      ((candidate_ids db index (filters.getD emptyFilters)).map
        (fun cid => resultOfLex db cid 0)).take top_k := by
  apply search_cases_zeros
  have hb : (index.mode == "tfidf") = false := by
    rw [hmode]
    decide
  simp [hb]

/-- Witness for C3: a concrete embeddings-mode index, non-empty query, all
candidates returned with zero scores in index order. -/
theorem c3_generic_search_embeddings_zero_scores_witness :
    stripTruthy "pump" = true ∧
    search_cases cosStub exDb embIdx "pump" none 10 =
      [resultOfLex exDb "A" 0, resultOfLex exDb "B" 0] :=
  ⟨rfl,
   (c3_generic_search_embeddings_zero_scores cosStub exDb embIdx "pump" none 10 rfl
      (Option.some_ne_none _) rfl).trans (by decide)⟩

/-- Claim C4: with an empty or whitespace-only query, search_cases returns
the filter-passing candidates in original index order, each with score 0,
truncated to the first top_k entries. -/
theorem c4_whitespace_query_zero_scores
    (cosSimFn : List ℚ → List (List ℚ) → List ℚ) (db : Db) (index : CaseIndex)
    (query : String) (filters : Option SearchFilters) (top_k : Nat)
    (hq : stripTruthy query = false) :
    search_cases cosSimFn db index query filters top_k =
      ((candidate_ids db index (filters.getD emptyFilters)).map
        (fun cid => resultOfLex db cid 0)).take top_k := by
  apply search_cases_zeros
  simp [hq]

/-- Witness for C4: the end-to-end scenario with cases A and B, filter
vv_type validation and the empty query yields exactly the A result with
score 0. -/
theorem c4_whitespace_query_zero_scores_witness :
    stripTruthy "" = false ∧
    search_cases cosStub exDb lexIdx "" (some exFiltersV) 10 =
      [resultOfLex exDb "A" 0] :=
  ⟨rfl,
   (c4_whitespace_query_zero_scores cosStub exDb lexIdx "" (some exFiltersV) 10
      rfl).trans (by decide)⟩

/-- Claim C8 (counterexample): with a filter that no corpus case passes,
search_cases does return the empty list, but
search_cases_with_query_embedding on a non-embeddings index raises the
mode-mismatch error instead of returning an empty list, refuting the
claim as stated (it quantifies over every index). -/
theorem c8_counterexample :
    (list_cases exDb).all (fun c => !(noMatchFilters.matches c)) = true ∧
    search_cases cosStub exDb lexIdx "q" (some noMatchFilters) 10 = [] ∧
    search_cases_with_query_embedding nrmStub exDb lexIdx [1] (some noMatchFilters) 10 =
      .error "Index is not in embeddings mode" := by
  refine ⟨by decide, by decide, ?_⟩
  rfl

/-- Claim C8 (amended): whenever no case passes the filters, search_cases
returns the empty list; search_cases_with_query_embedding likewise returns
an empty result provided the index is in embeddings mode with a payload (on
any other index the mode-mismatch check fires first). -/
theorem c8_empty_candidate_set
    (cosSimFn : List ℚ → List (List ℚ) → List ℚ) (normFn : List ℚ → ℚ)
    (db : Db) (index : CaseIndex) (query : String) (query_embedding : List ℚ)
    (filters : Option SearchFilters) (top_k : Nat)
    (hempty : candidate_ids db index (filters.getD emptyFilters) = []) :
    search_cases cosSimFn db index query filters top_k = [] ∧
    (index.mode = "embeddings" → index.embeddings ≠ none →
      search_cases_with_query_embedding normFn db index query_embedding filters top_k =
        .ok []) := by
  constructor
  · have he : (candidate_ids db index (filters.getD emptyFilters)).isEmpty = true := by
      rw [hempty]
      rfl
    simp only [search_cases, he, if_true]
  · intro h1 h2
    have hb : (index.mode == "embeddings") = true := by simpa using h1
    have hs : index.embeddings.isNone = false := by
      cases hopt : index.embeddings with
      | none => exact absurd hopt h2
      | some v => rfl
    have hpairs : ((candidate_pairs db index (filters.getD emptyFilters)).map
        (fun p => p.2)).isEmpty = true := by
      rw [candidate_pairs_map_snd, hempty]
      rfl
    simp only [search_cases_with_query_embedding, hb, hs, Bool.not_true, Bool.false_or,
      Bool.false_eq_true, if_false, hpairs, if_true]

/-- Witness for C8 (amended): filter selecting a vv_type absent from the
corpus, on an embeddings-mode index; both entry points return empty. -/
theorem c8_empty_candidate_set_witness :
    candidate_ids exDb embIdx ((some noMatchFilters).getD emptyFilters) = [] ∧
    search_cases cosStub exDb embIdx "x" (some noMatchFilters) 10 = [] ∧
    search_cases_with_query_embedding nrmStub exDb embIdx [1, 0] (some noMatchFilters) 10 =
      .ok [] := by
  refine ⟨by decide, ?_, ?_⟩
  · exact (c8_empty_candidate_set cosStub nrmStub exDb embIdx "x" [1, 0]
      (some noMatchFilters) 10 (by decide)).1
  · exact (c8_empty_candidate_set cosStub nrmStub exDb embIdx "x" [1, 0]
      (some noMatchFilters) 10 (by decide)).2 rfl (Option.some_ne_none _)

/-- Claim C9: in both scoring paths the ranked candidate list is sorted by
non-increasing score, equal-score candidates keep their original corpus
order (stability, stated as score-level filter preservation over the zip of
candidates with scores, whose id projection is a sublist of the
filter-passing candidates in index order), and each entry point returns the
top_k prefix of that ranked list assembled into results. -/
theorem c9_ranking_descending_stable
    (cosSimFn : List ℚ → List (List ℚ) → List ℚ) (normFn : List ℚ → ℚ)
    (db : Db) (index : CaseIndex) (query : String) (query_embedding : List ℚ)
    (filters : Option SearchFilters) (top_k : Nat) :
    (List.Pairwise (fun a b => b.2 ≤ a.2)
        (sortDesc (lexScored cosSimFn db index query (filters.getD emptyFilters))) ∧
      ∀ s : ℚ,
        (sortDesc (lexScored cosSimFn db index query
            (filters.getD emptyFilters))).filter (fun z => decide (z.2 = s)) =
          (lexScored cosSimFn db index query
            (filters.getD emptyFilters)).filter (fun z => decide (z.2 = s))) ∧
    ((lexScored cosSimFn db index query (filters.getD emptyFilters)).map
        Prod.fst).Sublist (candidate_ids db index (filters.getD emptyFilters)) ∧
    (List.Pairwise (fun a b => b.2 ≤ a.2)
        (sortDesc (embScored normFn db index query_embedding (filters.getD emptyFilters))) ∧
      ∀ s : ℚ,
        (sortDesc (embScored normFn db index query_embedding
            (filters.getD emptyFilters))).filter (fun z => decide (z.2 = s)) =
          (embScored normFn db index query_embedding
            (filters.getD emptyFilters)).filter (fun z => decide (z.2 = s))) ∧
    ((embScored normFn db index query_embedding (filters.getD emptyFilters)).map
        Prod.fst).Sublist (candidate_ids db index (filters.getD emptyFilters)) ∧
    (stripTruthy query = true → index.mode = "tfidf" →
      index.tfidf_vectorizer.isSome = true → index.tfidf_matrix.isSome = true →
      search_cases cosSimFn db index query filters top_k =
        ((sortDesc (lexScored cosSimFn db index query
            (filters.getD emptyFilters))).take top_k).map
          (fun p => resultOfLex db p.1 p.2)) ∧
    (index.mode = "embeddings" → index.embeddings ≠ none →
      search_cases_with_query_embedding normFn db index query_embedding filters top_k =
        .ok (((sortDesc (embScored normFn db index query_embedding
            (filters.getD emptyFilters))).take top_k).map
          (fun p => resultOfEmb db p.1 p.2))) := by
  refine ⟨⟨sortDesc_pairwise _, fun s => sortDesc_filter s _⟩, ?_,
    ⟨sortDesc_pairwise _, fun s => sortDesc_filter s _⟩, ?_, ?_, ?_⟩
  · simp only [lexScored]
    exact map_fst_zip_sublist _ _
  · simp only [embScored]
    rw [← candidate_pairs_map_snd]
    exact map_fst_zip_sublist _ _
  · intro hq hmode hvec hmat
    have hb : (index.mode == "tfidf") = true := by simpa using hmode
    by_cases he : (candidate_ids db index (filters.getD emptyFilters)).isEmpty = true
    · have hnil : candidate_ids db index (filters.getD emptyFilters) = [] :=
        List.isEmpty_iff.mp he
      have hscored : lexScored cosSimFn db index query (filters.getD emptyFilters) = [] := by
        simp only [lexScored, hnil, List.zip_nil_left]
      simp only [search_cases, he, if_true, hscored]
      simp [sortDesc]
    · simp only [search_cases, he, Bool.false_eq_true, if_false, hq, hb, hvec, hmat,
        Bool.and_self, Bool.true_and, if_true]
  · intro h1 h2
    have hb : (index.mode == "embeddings") = true := by simpa using h1
    have hs : index.embeddings.isNone = false := by
      cases hopt : index.embeddings with
      | none => exact absurd hopt h2
      | some v => rfl
    simp only [search_cases_with_query_embedding, hb, hs, Bool.not_true, Bool.false_or,
      Bool.false_eq_true, if_false]
    by_cases he : ((candidate_pairs db index (filters.getD emptyFilters)).map
        (fun p => p.2)).isEmpty = true
    · rw [if_pos he]
      have hnil : candidate_pairs db index (filters.getD emptyFilters) = [] :=
        List.map_eq_nil_iff.mp (List.isEmpty_iff.mp he)
      have hscored :
          embScored normFn db index query_embedding (filters.getD emptyFilters) = [] := by
        simp only [embScored, hnil, List.map_nil, List.zip_nil_left]
      rw [hscored]
      simp [sortDesc]
    · rw [if_neg he]

/-- Witness for C9: concrete linking equalities for both entry points; in
the embeddings path the two candidates tie at score 0 and keep their
original corpus order. -/
theorem c9_ranking_descending_stable_witness :
    search_cases cosStub exDb lexIdx2 "pump" none 10 =
      ((sortDesc (lexScored cosStub exDb lexIdx2 "pump" emptyFilters)).take 10).map
        (fun p => resultOfLex exDb p.1 p.2) ∧
    search_cases_with_query_embedding nrmStub exDb embIdx [0, 0] none 10 =
      .ok [resultOfEmb exDb "A" 0, resultOfEmb exDb "B" 0] := by
  constructor
  · exact (c9_ranking_descending_stable cosStub nrmStub exDb lexIdx2 "pump" [0, 0]
      none 10).2.2.2.2.1 rfl rfl rfl rfl
  · have hpairs : candidate_pairs exDb embIdx emptyFilters = [(0, "A"), (1, "B")] := by
      decide
    have hemb : embIdx.embeddings = some [[1, 0], [0, 1]] := rfl
    have hscored : embScored nrmStub exDb embIdx [0, 0] emptyFilters =
        [("A", 0), ("B", 0)] := by
      simp only [embScored, hpairs, hemb, Option.getD_some, List.map_cons, List.map_nil,
        List.zip_cons_cons, List.getD_cons_zero, List.getD_cons_succ]
      norm_num [dotQ, nrmStub]
    have hsort : sortDesc [("A", (0 : ℚ)), ("B", 0)] = [("A", 0), ("B", 0)] := by
      simp [sortDesc, insertDesc]
    refine ((c9_ranking_descending_stable cosStub nrmStub exDb embIdx "pump" [0, 0]
      none 10).2.2.2.2.2 rfl (Option.some_ne_none _)).trans ?_
    simp only [Option.getD_none]
    rw [hscored, hsort]
    rfl

/-- Witness for C1 (amended) at a concrete case: a concrete line is
non-empty and the line count is exactly the nine case-field lines. -/
theorem c1_projector_line_discipline_witness :
    ("ID: X" ∈ caseTextLines titlelessCase []) ∧ "ID: X" ≠ "" ∧
      (caseTextLines titlelessCase []).length = 9 :=
  ⟨by decide,
   (c1_projector_line_discipline titlelessCase []).2.1 "ID: X" (by decide),
   (c1_projector_line_discipline titlelessCase []).2.2.trans (by decide)⟩
